import Mathlib

set_option linter.unusedVariables false

/-!
Shallow embedding of `src/lazy_fca_estimator.py` (class `LazyFCA`) from the
Lazy_FCA repository, and a verification of its natural-language
specification against the code.

The embedding models the Python semantics the source actually exercises:
values are tagged (`PyVal`), machine floats are extended rationals with
infinities and nan (`PyFloat`), fallible operations return
`Except PyErr`, tuples are immutable (item assignment raises TypeError),
function objects carry an arity and method binding prepends the receiver,
and a 1-D numpy array has no second shape component (IndexError).
-/

/-- Python exception classes raised by the code paths of the source file. -/
inductive PyErr where
  | typeError
  | indexError
  | valueError
  | zeroDivisionError
deriving DecidableEq, Repr

/-- A Python float: a finite rational, plus-or-minus infinity, or nan. -/
inductive PyFloat where
  | fin (q : ℚ)
  | inf
  | ninf
  | nan
deriving DecidableEq, Repr

/-- Python `<` on floats; any comparison involving nan is False. -/
def pyFloatLt : PyFloat → PyFloat → Bool
  | .fin a, .fin b => a < b
  | .fin _, .inf => true
  | .fin _, .ninf => false
  | .inf, .fin _ => false
  | .inf, .inf => false
  | .inf, .ninf => false
  | .ninf, .fin _ => true
  | .ninf, .inf => true
  | .ninf, .ninf => false
  | .nan, _ => false
  | _, .nan => false

/-- Python `<=` on floats; any comparison involving nan is False. -/
def pyFloatLe : PyFloat → PyFloat → Bool
  | .fin a, .fin b => a ≤ b
  | .fin _, .inf => true
  | .fin _, .ninf => false
  | .inf, .fin _ => false
  | .inf, .inf => true
  | .inf, .ninf => false
  | .ninf, _ => true
  | .nan, _ => false
  | _, .nan => false

/-- Python `==` on floats; nan compares unequal to everything, itself included. -/
def pyFloatEq : PyFloat → PyFloat → Bool
  | .fin a, .fin b => a == b
  | .inf, .inf => true
  | .ninf, .ninf => true
  | _, _ => false

/-- Python `+` on floats (inf + (-inf) is nan). -/
def pyFloatAdd : PyFloat → PyFloat → PyFloat
  | .nan, _ => .nan
  | _, .nan => .nan
  | .inf, .ninf => .nan
  | .ninf, .inf => .nan
  | .inf, _ => .inf
  | _, .inf => .inf
  | .ninf, _ => .ninf
  | _, .ninf => .ninf
  | .fin a, .fin b => .fin (a + b)

/-- Python `/` on floats: division by (exact) zero raises ZeroDivisionError,
nan propagates, inf-over-inf is nan, finite-over-inf is zero. -/
def pyFloatDiv (a b : PyFloat) : Except PyErr PyFloat :=
  if b = .fin 0 then .error .zeroDivisionError
  else match a, b with
  | .nan, _ => .ok .nan
  | _, .nan => .ok .nan
  | .inf, .inf => .ok .nan
  | .inf, .ninf => .ok .nan
  | .ninf, .inf => .ok .nan
  | .ninf, .ninf => .ok .nan
  | .inf, .fin b => .ok (if 0 < b then .inf else .ninf)
  | .ninf, .fin b => .ok (if 0 < b then .ninf else .inf)
  | .fin _, .inf => .ok (.fin 0)
  | .fin _, .ninf => .ok (.fin 0)
  | .fin a, .fin b => .ok (.fin (a / b))

/-- A Python value of the shapes the source manipulates: a string, a number
(int or float - the code only ever distinguishes `type(v) is str`), a bool,
a tuple, `None`, or an opaque object (used only as the receiver `self`). -/
inductive PyVal where
  | str (s : String)
  | num (f : PyFloat)
  | bool (b : Bool)
  | tup (l : List PyVal)
  | none
  | obj
deriving Repr

/-- Numeric view of a value: Python bools are ints in arithmetic contexts. -/
def numView : PyVal → Option PyFloat
  | .num f => some f
  | .bool b => some (.fin (if b then 1 else 0))
  | _ => Option.none

/-- Python string `<`: lexicographic by code point. -/
def pyStrLt : List Char → List Char → Bool
  | [], [] => false
  | [], _ :: _ => true
  | _ :: _, [] => false
  | a :: as, b :: bs =>
    if a.val < b.val then true
    else if b.val < a.val then false
    else pyStrLt as bs

/-- Python `==` restricted to the value shapes the source compares
(strings with anything, numbers, None).  Cross-kind comparisons are False;
tuple-to-tuple equality never occurs in the source and is modelled False. -/
def pyEq (a b : PyVal) : Bool :=
  match a, b with
  | .str x, .str y => x == y
  | .none, .none => true
  | .obj, .obj => true
  | x, y =>
    match numView x, numView y with
    | some fx, some fy => pyFloatEq fx fy
    | _, _ => false

/-- Python `<`: strings lexicographically, numbers numerically, anything
else raises TypeError (unorderable types).  The source only ever orders
two strings or two numbers. -/
def pyLt (a b : PyVal) : Except PyErr Bool :=
  match a, b with
  | .str x, .str y => .ok (pyStrLt x.data y.data)
  | x, y =>
    match numView x, numView y with
    | some fx, some fy => .ok (pyFloatLt fx fy)
    | _, _ => .error .typeError

/-- Python `>=`, same domain as `pyLt`. -/
def pyGe (a b : PyVal) : Except PyErr Bool :=
  match a, b with
  | .str x, .str y => .ok (!pyStrLt x.data y.data)
  | x, y =>
    match numView x, numView y with
    | some fx, some fy => .ok (pyFloatLe fy fx)
    | _, _ => .error .typeError

/-- Python subscription `v[i]` for a non-negative literal index: strings
yield a one-character string, tuples their component; out-of-range raises
IndexError, non-subscriptable values raise TypeError. -/
def pyGetItem (v : PyVal) (i : ℕ) : Except PyErr PyVal :=
  match v with
  | .str s =>
    if h : i < s.data.length then .ok (.str (String.mk [s.data.get ⟨i, h⟩]))
    else .error .indexError
  | .tup l =>
    if h : i < l.length then .ok (l.get ⟨i, h⟩)
    else .error .indexError
  | _ => .error .typeError

/-- Python item assignment `v[i] = x`.  Tuples and strings are immutable
(TypeError); the remaining value shapes are not subscriptable (TypeError).
The source never builds a mutable container, so every case raises. -/
def pySetItem (v : PyVal) (i : ℕ) (x : PyVal) : Except PyErr PyVal :=
  match v with
  | .tup _ => .error .typeError
  | _ => .error .typeError

/-- Python `+` on the shapes the source adds (numbers; string concatenation
for completeness). -/
def pyAdd (a b : PyVal) : Except PyErr PyVal :=
  match a, b with
  | .str x, .str y => .ok (.str (x ++ y))
  | x, y =>
    match numView x, numView y with
    | some fx, some fy => .ok (.num (pyFloatAdd fx fy))
    | _, _ => .error .typeError

/-- Python `/` (true division). -/
def pyDiv (a b : PyVal) : Except PyErr PyVal :=
  match numView a, numView b with
  | some fx, some fy => (pyFloatDiv fx fy).map .num
  | _, _ => .error .typeError

/-- Python augmented item assignment `v[i] += d`: reads `v[i]`, adds, then
assigns the item - the assignment is what raises on an immutable container. -/
def pyItemAddAssign (v : PyVal) (i : ℕ) (d : PyVal) : Except PyErr PyVal := do
  let cur ← pyGetItem v i
  let s ← pyAdd cur d
  pySetItem v i s

/-- Python `v is None`. -/
def pyIsNone : PyVal → Bool
  | .none => true
  | _ => false

/-- Python truthiness of a value. -/
def pyTruthy : PyVal → Bool
  | .none => false
  | .bool b => b
  | .num (.fin q) => decide (q ≠ 0)
  | .num _ => true
  | .str s => !(s == "")
  | .tup l => !l.isEmpty
  | .obj => true

/-- Python `min(a, b)`: `b` if `b < a` else `a`. -/
def pyMinV (a b : PyVal) : Except PyErr PyVal := do
  let c ← pyLt b a
  pure (if c then b else a)

/-- Python `max(a, b)`: `b` if `a < b` else `a`. -/
def pyMaxV (a b : PyVal) : Except PyErr PyVal := do
  let c ← pyLt a b
  pure (if c then b else a)

/-- A Python function object: its positional parameter count and its body. -/
structure PyFunc where
  arity : ℕ
  run : List PyVal → Except PyErr PyVal

/-- Calling a function object: passing a number of arguments different from
the parameter count raises TypeError before the body runs. -/
def callFunc (f : PyFunc) (args : List PyVal) : Except PyErr PyVal :=
  if args.length = f.arity then f.run args else .error .typeError

/-- `_basic_interval(a, b) = (min(a, b), max(a, b))` (source lines 78-79).
Declared inside the class with two parameters and no `self`. -/
def basic_interval : PyFunc :=
  ⟨2, fun args =>
    match args with
    | [a, b] => do
        let lo ← pyMinV a b
        let hi ← pyMaxV a b
        pure (.tup [lo, hi])
    | _ => .error .typeError⟩

/-- `_min_inf_interval(a, b) = (min(a, b), float('inf'))` (source lines 81-82). -/
def min_inf_interval : PyFunc :=
  ⟨2, fun args =>
    match args with
    | [a, b] => do
        let lo ← pyMinV a b
        pure (.tup [lo, .num .inf])
    | _ => .error .typeError⟩

/-- `_min_max_interval(a, b) = (max(a, b), float('inf'))` (source lines 84-85). -/
def min_max_interval : PyFunc :=
  ⟨2, fun args =>
    match args with
    | [a, b] => do
        let hi ← pyMaxV a b
        pure (.tup [hi, .num .inf])
    | _ => .error .typeError⟩

/-- How `self.numerical_preprocessing` was stored by `__init__` (lines 23-30):
a class-level function fetched through `self` becomes a bound method
(`bound`), while a user-supplied callable is stored in the instance
dictionary as a plain function (`custom`). -/
inductive NumPolicy where
  | bound (f : PyFunc)
  | custom (f : PyFunc)

/-- Calling `self.numerical_preprocessing(a, b)` (line 107): a bound method
call prepends the receiver to the argument list. -/
def callPolicy : NumPolicy → PyVal → PyVal → Except PyErr PyVal
  | .bound f, a, b => callFunc f [.obj, a, b]
  | .custom f, a, b => callFunc f [a, b]

/-- The three shipped interval policies selectable in `__init__`. -/
inductive BuiltinChoice where
  | basicI
  | minInfI
  | minMaxI

def builtinPolicy : BuiltinChoice → NumPolicy
  | .basicI => .bound basic_interval
  | .minInfI => .bound min_inf_interval
  | .minMaxI => .bound min_max_interval

/-- The constructor parameters of `LazyFCA` (lines 11-22). -/
structure LazyCfg where
  consistency_threshold : ℚ
  undefined_treshhold : ℚ
  min_extent_size : ℤ
  check_number : ℤ
  numerical_preprocessing : NumPolicy

/-- The defaults of `__init__`: threshold 0.9, undefined 0.8, min extent 2,
check number 1, and `self._basic_interval` fetched through `self`. -/
def defaultCfg : LazyCfg :=
  ⟨9/10, 8/10, 2, 1, .bound basic_interval⟩

/-- The loop of `_compute_instersection` (lines 100-109): for each index of
the query row, a string query cell keeps the shared value or becomes the
wildcard `'*'`; any other query cell is replaced by
`self.numerical_preprocessing(x[i], x_train[i])`.  Reading `x_train[i]`
past the end raises IndexError, as in numpy. -/
def interCells (cfg : LazyCfg) : List PyVal → List PyVal → Except PyErr (List PyVal)
  | [], _ => .ok []
  | xi :: xs, ts =>
    match ts with
    | [] => .error .indexError
    | ti :: ts' =>
      match xi with
      | .str s => do
          let rest ← interCells cfg xs ts'
          pure ((if pyEq (PyVal.str s) ti then PyVal.str s else PyVal.str "*") :: rest)
      | x => do
          let v ← callPolicy cfg.numerical_preprocessing x ti
          let rest ← interCells cfg xs ts'
          pure (v :: rest)

/-- `_compute_instersection(self, x, x_train)` (lines 87-109). -/
def compute_instersection (cfg : LazyCfg) (x x_train : List PyVal) :
    Except PyErr (List PyVal) :=
  interCells cfg x x_train

/-- A numpy array argument as the source passes it: 2-D (an array of rows,
the documented shape of `X_train`) or 1-D (the single row `predict`
actually passes at line 217). -/
inductive NpArr where
  | one (row : List PyVal)
  | two (rows : List (List PyVal))

/-- The `Y_train` argument: the label array the docstring expects, or the
scalar label `predict` actually passes. -/
inductive YArg where
  | scalar (z : ℤ)
  | arr (l : List ℤ)

/-- `Y_train[i]`: subscribing a numpy scalar raises IndexError. -/
def yGet : YArg → ℕ → Except PyErr ℤ
  | .scalar _, _ => .error .indexError
  | .arr l, i => if h : i < l.length then .ok (l.get ⟨i, h⟩) else .error .indexError

/-- List indexing with Python IndexError semantics. -/
def cellGet (l : List PyVal) (j : ℕ) : Except PyErr PyVal :=
  if h : j < l.length then .ok (l.get ⟨j, h⟩) else .error .indexError

/-- The inner loop of `_compute_extent_target` (lines 132-140), iterating
`j` with the given remaining fuel.  A non-string training cell is not
checked at all.  A string cell fails the row only when the pattern cell is
a different non-wildcard value; otherwise the code compares the cell
against the first and second characters of the pattern cell (the misparsed
interval test of line 138), where the `break` leaves `is_valid` True
because only the misspelled `is_fit` is set (line 139). -/
def rowValidAux (row inter : List PyVal) : ℕ → ℕ → Except PyErr Bool
  | _, 0 => .ok true
  | j, fuel + 1 => do
      let cell ← cellGet row j
      match cell with
      | .str s => do
          let pj ← cellGet inter j
          if !(pyEq pj (PyVal.str "*")) && !(pyEq (PyVal.str s) pj) then
            pure false
          else do
            let lo ← pyGetItem pj 0
            let c1 ← pyLt (PyVal.str s) lo
            if c1 then pure true
            else do
              let hi ← pyGetItem pj 1
              let c2 ← pyLt hi (PyVal.str s)
              if c2 then pure true
              else rowValidAux row inter (j + 1) fuel
      | _ => rowValidAux row inter (j + 1) fuel

/-- The initial `labels_count = (0, 0)` of line 128 and
`target_count = (0, 0)` of line 213: a two-element tuple of ints. -/
def pairZeroZero : PyVal := .tup [.num (.fin 0), .num (.fin 0)]

/-- Lines 143-146: a valid row's label is recorded on the counter pair with
`labels_count[1] += 1` when `Y_train[i]` is truthy, else
`labels_count[0] += 0`. -/
def countLabel (lc : PyVal) (y : ℤ) : Except PyErr PyVal :=
  if y ≠ 0 then pyItemAddAssign lc 1 (.num (.fin 1))
  else pyItemAddAssign lc 0 (.num (.fin 0))

/-- The outer loop of `_compute_extent_target` (lines 130-146) over the
rows of a 2-D array of width `width`. -/
def rowsLoop (Y : YArg) (inter : List PyVal) (width : ℕ) :
    List (List PyVal) → ℕ → PyVal → Except PyErr PyVal
  | [], _, lc => .ok lc
  | r :: rs, i, lc => do
      let v ← rowValidAux r inter 0 width
      if v then do
        let y ← yGet Y i
        let lc' ← countLabel lc y
        rowsLoop Y inter width rs (i + 1) lc'
      else rowsLoop Y inter width rs (i + 1) lc

/-- Lines 148-159 of `_compute_extent_target`: the extent-size guard and
the consistency decision. -/
def afterLoop (cfg : LazyCfg) (lc : PyVal) : Except PyErr PyVal := do
  let v0 ← pyGetItem lc 0
  let v1 ← pyGetItem lc 1
  let es ← pyAdd v0 v1
  let small ← pyLt es (.num (.fin (cfg.min_extent_size : ℚ)))
  if small then pure PyVal.none
  else do
    let g ← pyLt v1 v0
    if g then do
      let r ← pyDiv v0 es
      let t ← pyGe r (.num (.fin cfg.consistency_threshold))
      pure (if t then PyVal.bool false else PyVal.none)
    else do
      let r ← pyDiv v1 es
      let t ← pyGe r (.num (.fin cfg.consistency_threshold))
      pure (if t then PyVal.bool true else PyVal.none)

/-- `_compute_extent_target(self, X_train, Y_train, intersection)`
(lines 112-159).  For a 1-D argument `X_train.shape[0]` is the row length,
and the first iteration of the outer loop evaluates
`range(X_train.shape[1])`, which raises IndexError because the shape tuple
of a 1-D array has a single component; with zero iterations the loop body
never runs and control reaches line 148 directly. -/
def compute_extent_target (cfg : LazyCfg) (X_train : NpArr) (Y_train : YArg)
    (inter : List PyVal) : Except PyErr PyVal :=
  match X_train with
  | .one r => if r.length = 0 then afterLoop cfg pairZeroZero else .error .indexError
  | .two rows => do
      let lc ← rowsLoop Y_train inter (rows.headD []).length rows 0 pairZeroZero
      afterLoop cfg lc

/-- The per-query loop state of `predict` (lines 212-213). -/
structure ScanState where
  number_checked : ℤ
  target_count : PyVal

/-- Lines 220-223: a non-None verdict records a vote on the counter pair
with `target_count[1] += 1` when truthy, else `target_count[0] += 1`. -/
def voteStep (tcv : PyVal) (et : PyVal) : Except PyErr PyVal :=
  if pyTruthy et then pyItemAddAssign tcv 1 (.num (.fin 1))
  else pyItemAddAssign tcv 0 (.num (.fin 1))

/-- The scan of lines 214-227: for each `(x_train, y_train)` pair the
intersection is computed and `_compute_extent_target` is invoked with the
single row `x_train` and the scalar label `y_train`; an Undecided verdict
is skipped, otherwise a vote is recorded with `target_count[k] += 1`, and
the loop breaks when `number_checked >= self.check_number`. -/
def scanLoop (cfg : LazyCfg) (x : List PyVal) :
    List (List PyVal) → List ℤ → ScanState → Except PyErr ScanState
  | [], _, s => .ok s
  | _ :: _, [], s => .ok s
  | xt :: xts, yt :: yts, s => do
      let inter ← compute_instersection cfg x xt
      let et ← compute_extent_target cfg (.one xt) (.scalar yt) inter
      if pyIsNone et then scanLoop cfg x xts yts s
      else do
        let tc ← voteStep s.target_count et
        if s.number_checked ≥ cfg.check_number then .ok ⟨s.number_checked, tc⟩
        else scanLoop cfg x xts yts ⟨s.number_checked, tc⟩

/-- List indexing into `self.classes_`. -/
def listGetZ (l : List ℤ) (i : ℕ) : Except PyErr ℤ :=
  if h : i < l.length then .ok (l.get ⟨i, h⟩) else .error .indexError

/-- Lines 229-240 of `predict`: the resolution of one query.  When the vote
total reaches `check_number` and one side strictly wins, the confidence
`target_count[k] / number_checked` is appended (when requested) and the
winning class is yielded; in every case the trailing unconditional
`yield None` of line 240 also runs, so a resolved query emits two values. -/
def confAppend (confidence : Bool) (t : PyVal) (n : ℤ) :
    Except PyErr (List PyVal) :=
  if confidence then do
    let c ← pyDiv t (.num (.fin (n : ℚ)))
    pure [c]
  else pure []

def resolveQuery (cfg : LazyCfg) (classes : List ℤ) (s : ScanState)
    (confidence : Bool) : Except PyErr (List (Option ℤ) × List PyVal) := do
  let t0 ← pyGetItem s.target_count 0
  let t1 ← pyGetItem s.target_count 1
  let tot ← pyAdd t0 t1
  let enough ← pyGe tot (.num (.fin (cfg.check_number : ℚ)))
  if enough then do
    let g ← pyLt t1 t0
    if g then do
      let confs ← confAppend confidence t0 s.number_checked
      let c0 ← listGetZ classes 0
      pure ([some c0, Option.none], confs)
    else do
      let g2 ← pyLt t0 t1
      if g2 then do
        let confs ← confAppend confidence t1 s.number_checked
        let c1 ← listGetZ classes 1
        pure ([some c1, Option.none], confs)
      else pure ([Option.none], [])
  else pure ([Option.none], [])

/-- The observable outcome of driving the `predict` generator to
completion: the values yielded before any uncaught exception, the
exception if one was raised, and the final contents of the
`self.confidence_` list. -/
structure PredictResult where
  yielded : List (Option ℤ)
  err : Option PyErr
  confidence_ : List PyVal

/-- The outer loop of `predict` (lines 206-240) over the query rows.  An
exception raised inside the generator ends the outcome sequence. -/
def queryLoop (cfg : LazyCfg) (classes : List ℤ) (Xtr : List (List PyVal))
    (Yb : List ℤ) (confidence : Bool) :
    List (List PyVal) → List (Option ℤ) → List PyVal → PredictResult
  | [], acc, confs => ⟨acc, Option.none, confs⟩
  | x :: xs, acc, confs =>
    match scanLoop cfg x Xtr Yb ⟨0, pairZeroZero⟩ with
    | .error e => ⟨acc, some e, confs⟩
    | .ok s =>
      match resolveQuery cfg classes s confidence with
      | .error e => ⟨acc, some e, confs⟩
      | .ok (outs, cs) => queryLoop cfg classes Xtr Yb confidence xs (acc ++ outs) (confs ++ cs)

/-- `sklearn.utils.multiclass.unique_labels`: the sorted distinct labels. -/
def uniqueLabels (l : List ℤ) : List ℤ :=
  List.insertionSort (· ≤ ·) l.dedup

/-- Lines 202-203 of `predict`: when the two classes are not already the
pair 0, 1, `Y_train` is replaced by `np.where(Y_train == classes[0], 0, 1)`. -/
def binarize (Y_train : List ℤ) : List ℤ :=
  let c0 := (uniqueLabels Y_train).getD 0 0
  let c1 := (uniqueLabels Y_train).getD 1 0
  if (c0 = 0 ∨ c0 = 1) ∧ (c1 = 0 ∨ c1 = 1) then Y_train
  else Y_train.map (fun y => if y = c0 then 0 else 1)

/-- `predict` (lines 162-240) with training data supplied, run to
exhaustion.  `self.classes_ = unique_labels(Y_train)`; a class count other
than two raises ValueError (lines 198-199) before `self.confidence_` is
cleared, so the prior log `confidence0` survives in that case; otherwise
labels are binarised (lines 202-203), the log is cleared (line 205), and
the query loop runs. -/
def predictRun (cfg : LazyCfg) (X X_train : List (List PyVal)) (Y_train : List ℤ)
    (confidence : Bool) (confidence0 : List PyVal) : PredictResult :=
  if (uniqueLabels Y_train).length = 2 then
    queryLoop cfg (uniqueLabels Y_train) X_train (binarize Y_train) confidence X [] []
  else ⟨[], some .valueError, confidence0⟩

/-- Modelled from the spec (section 3, Extent; section 4.2): a single
pattern cell accepts a row cell when the categorical pattern is the
wildcard or the exact value, or when a numeric value lies in the closed
interval. -/
def specCellMatch : PyVal → PyVal → Bool
  | .str p, .str c => p == "*" || p == c
  | .tup [.num lo, .num hi], .num v => pyFloatLe lo v && pyFloatLe v hi
  | _, _ => false

/-- Modelled from the spec: a training row satisfies a pattern when every
column accepts. -/
def specRowMatch (pat row : List PyVal) : Bool :=
  pat.length == row.length &&
    (List.zip pat row).all (fun pr => specCellMatch pr.1 pr.2)

/-- Modelled from the spec: the size of the extent of a pattern. -/
def specMatchCount (pat : List PyVal) (rows : List (List PyVal)) : ℕ :=
  (rows.filter (fun r => specRowMatch pat r)).length

/-- Modelled from the spec: the number of extent rows carrying a label. -/
def specCountLabel (pat : List PyVal) (rows : List (List PyVal))
    (labels : List ℤ) (t : ℤ) : ℕ :=
  ((List.zip rows labels).filter (fun p => specRowMatch pat p.1 && (p.2 == t))).length

/-- A query cell is categorical exactly when `type(x[i]) is str` (line 103). -/
def isStrV : PyVal → Bool
  | .str _ => true
  | _ => false

/-- The checked counter of a scan outcome, with a default for the raising case. -/
def checkedOf : Except PyErr ScanState → ℤ → ℤ
  | .ok s, _ => s.number_checked
  | .error _, d => d

theorem exbind_error {α β : Type} (e : PyErr) (f : α → Except PyErr β) :
    (Except.error e >>= f) = Except.error e := rfl

theorem exbind_ok {α β : Type} (a : α) (f : α → Except PyErr β) :
    (Except.ok a >>= f) = f a := rfl

theorem exmap_error {α β : Type} (e : PyErr) (f : α → β) :
    (Except.map f (Except.error e) : Except PyErr β) = .error e := rfl

/-- C1: in `predict`, the verdict for a pair (x, t) is supposed to come from
evaluating the pattern's extent over the entire training set; the code
instead passes only the single 1-D row t (line 217), on which
`_compute_extent_target` raises IndexError at `X_train.shape[1]`.  The
conjuncts: the per-pair scan step raises IndexError; the extent evaluation
invoked exactly as `predict` invokes it raises IndexError; while the
spec-modelled extent of the same pattern over a full training set is a
well-defined row count. -/
theorem C1_extent_evaluated_on_single_row :
    scanLoop defaultCfg [PyVal.str "a"] [[PyVal.str "a"]] [0] ⟨0, pairZeroZero⟩ =
      .error .indexError ∧
    compute_extent_target defaultCfg (.one [PyVal.str "a"]) (.scalar 0) [PyVal.str "a"] =
      .error .indexError ∧
    specMatchCount [PyVal.str "a"] [[PyVal.str "a"], [PyVal.str "b"]] = 1 :=
  ⟨rfl, rfl, rfl⟩

/-- C2: the claim says predict yields exactly one outcome per query row.  On
the code, a run over one query row and a two-row training set raises before
the first yield, so zero outcomes are produced for one query; moreover the
resolution block (lines 229-240) emits the winning class and then also the
unconditional `yield None` of line 240, i.e. two outcomes for a single
resolved query. -/
theorem C2_one_outcome_per_query_fails :
    (predictRun defaultCfg [[PyVal.str "a"]] [[PyVal.str "a"], [PyVal.str "b"]]
        [0, 1] false []).yielded.length = 0 ∧
    (predictRun defaultCfg [[PyVal.str "a"]] [[PyVal.str "a"], [PyVal.str "b"]]
        [0, 1] false []).err = some .indexError ∧
    resolveQuery defaultCfg [0, 1] ⟨1, .tup [.num (.fin 2), .num (.fin 0)]⟩ false =
      .ok ([some 0, Option.none], []) := by
  refine ⟨rfl, rfl, ?_⟩
  norm_num [resolveQuery, confAppend, pyGetItem, pyAdd, numView, pyFloatAdd, pyGe,
    pyFloatLe, pyLt, pyFloatLt, listGetZ, defaultCfg, exbind_ok, exbind_error]

/-- C5: the claim says the extent evaluation returns Undecided whenever the
matching-row count is below `min_extent_size`.  On the code, with the
default configuration (min extent 2) and a one-row training set whose row
does not match the pattern (5 is outside the interval 1..2), the evaluation
raises TypeError instead of returning Undecided: the numeric cell is never
range-checked, the row is counted, and the tuple counter increment raises. -/
theorem C5_small_extent_not_undecided :
    specMatchCount [PyVal.tup [.num (.fin 1), .num (.fin 2)]] [[PyVal.num (.fin 5)]] = 0 ∧
    defaultCfg.min_extent_size = 2 ∧
    compute_extent_target defaultCfg (.two [[PyVal.num (.fin 5)]]) (.arr [0])
      [PyVal.tup [.num (.fin 1), .num (.fin 2)]] = .error .typeError :=
  ⟨rfl, rfl, rfl⟩

/-- C6: the claim says a tied extent (count0 = count1, extent size at least
`min_extent_size`) yields Undecided for every consistency threshold.  On
the code, a training set producing an exact 1-1 tie per the spec's
membership makes the evaluation raise TypeError at the first counter
increment, for every threshold, so Undecided is never returned on a tie. -/
theorem C6_tie_not_undecided :
    specCountLabel [PyVal.tup [.num (.fin 0), .num (.fin 10)]]
      [[PyVal.num (.fin 1)], [PyVal.num (.fin 2)]] [0, 1] 0 = 1 ∧
    specCountLabel [PyVal.tup [.num (.fin 0), .num (.fin 10)]]
      [[PyVal.num (.fin 1)], [PyVal.num (.fin 2)]] [0, 1] 1 = 1 ∧
    ∀ θ : ℚ, compute_extent_target { defaultCfg with consistency_threshold := θ }
      (.two [[PyVal.num (.fin 1)], [PyVal.num (.fin 2)]]) (.arr [0, 1])
      [PyVal.tup [.num (.fin 0), .num (.fin 10)]] = .error .typeError :=
  ⟨rfl, rfl, fun _ => rfl⟩

/-- C7: the claim says `generalize(x, x)` is maximally specific in every
column.  On the code, a numeric self-intersection raises TypeError (the
two-parameter `_basic_interval` is invoked as a bound method with three
arguments), even though the function body itself would produce the
zero-width interval; the categorical half does hold. -/
theorem C7_generalize_self_raises_on_numeric :
    compute_instersection defaultCfg [PyVal.num (.fin 1)] [PyVal.num (.fin 1)] =
      .error .typeError ∧
    callFunc basic_interval [PyVal.num (.fin 1), PyVal.num (.fin 1)] =
      .ok (.tup [.num (.fin 1), .num (.fin 1)]) ∧
    compute_instersection defaultCfg [PyVal.str "a"] [PyVal.str "a"] =
      .ok [PyVal.str "a"] :=
  ⟨rfl, rfl, rfl⟩

/-- C8: the claim says that when a query resolves to a label with
confidence requested, `winningVotes / checked` in (0.5, 1] is appended to
the call-reset log.  On the code, a query that per the spec should resolve
(two identical matching training rows of label 0) instead raises TypeError
before any vote is counted, leaving the cleared log empty; and the
resolution block itself, at any state with a strict winner, divides by the
never-incremented `number_checked = 0` and raises ZeroDivisionError. -/
theorem C8_confidence_never_recorded :
    predictRun defaultCfg [[PyVal.num (.fin 1)]]
      [[PyVal.num (.fin 1)], [PyVal.num (.fin 1)], [PyVal.num (.fin 9)]] [0, 0, 1]
      true [PyVal.num (.fin 99)] = ⟨[], some .typeError, []⟩ ∧
    resolveQuery defaultCfg [0, 1] ⟨0, .tup [.num (.fin 2), .num (.fin 0)]⟩ true =
      .error .zeroDivisionError := by
  refine ⟨rfl, ?_⟩
  norm_num [resolveQuery, confAppend, pyGetItem, pyAdd, numView, pyFloatAdd, pyGe,
    pyFloatLe, pyLt, pyFloatLt, pyDiv, pyFloatDiv, listGetZ, defaultCfg, exbind_ok,
    exbind_error, exmap_error]

/-- C9: both `labels_count` (line 128) and `target_count` (line 213) are the
immutable two-element tuple (0, 0); tuple item assignment always raises
TypeError, so each in-place increment the code performs
(`labels_count[1] += 1`, `labels_count[0] += 0`, `target_count[k] += 1`)
raises TypeError instead of updating the count, and an extent computation
that reaches a counting step raises. -/
theorem C9_count_increment_raises :
    pairZeroZero = PyVal.tup [.num (.fin 0), .num (.fin 0)] ∧
    (∀ (l : List PyVal) (i : ℕ) (d : PyVal),
      pySetItem (PyVal.tup l) i d = .error .typeError) ∧
    pyItemAddAssign pairZeroZero 1 (.num (.fin 1)) = .error .typeError ∧
    pyItemAddAssign pairZeroZero 0 (.num (.fin 0)) = .error .typeError ∧
    compute_extent_target defaultCfg (.two [[PyVal.num (.fin 3)]]) (.arr [1])
      [PyVal.str "*"] = .error .typeError :=
  ⟨rfl, fun _ _ _ => rfl, rfl, rfl, rfl⟩

theorem checkedOf_afterVote (cfg : LazyCfg) (x : List PyVal) (xts : List (List PyVal))
    (yts : List ℤ) (n : ℤ) (act : Except PyErr PyVal)
    (ih : ∀ s' : ScanState, checkedOf (scanLoop cfg x xts yts s') s'.number_checked =
      s'.number_checked) :
    checkedOf (act >>= fun tc =>
      if n ≥ cfg.check_number then Except.ok (ScanState.mk n tc)
      else scanLoop cfg x xts yts (ScanState.mk n tc)) n = n := by
  cases act with
  | error e => rfl
  | ok tc =>
    simp only [exbind_ok]
    split
    · rfl
    · exact ih ⟨n, tc⟩

/-- C3: the claim says every non-Undecided verdict increments the checked
counter, and the scan stops once that counter reaches `check_number`.  In
the code, `number_checked` is assigned 0 at line 212 and never incremented
anywhere in the scan, so whenever the scan terminates normally the counter
still holds its initial value, and the break condition at line 226 always
compares that initial 0 against `check_number`.  (Recording a verdict also
raises TypeError on the tuple counter, so in practice the scan never even
survives a non-Undecided verdict.) -/
theorem C3_checked_counter_never_incremented (cfg : LazyCfg) (x : List PyVal) :
    ∀ (xts : List (List PyVal)) (yts : List ℤ) (s : ScanState),
      checkedOf (scanLoop cfg x xts yts s) s.number_checked = s.number_checked := by
  intro xts
  induction xts with
  | nil => intro yts s; rfl
  | cons xt xts ih =>
    intro yts s
    cases yts with
    | nil => rfl
    | cons yt yts =>
      simp only [scanLoop]
      cases h1 : compute_instersection cfg x xt with
      | error e => rfl
      | ok inter =>
        simp only [exbind_ok]
        cases h2 : compute_extent_target cfg (NpArr.one xt) (YArg.scalar yt) inter with
        | error e => rfl
        | ok et =>
          simp only [exbind_ok]
          split
          · exact ih yts s
          · exact checkedOf_afterVote cfg x xts yts s.number_checked _
              (fun s' => ih yts s')

theorem pure_ne_vE {α : Type} (a : α) :
    (pure a : Except PyErr α) ≠ .error .valueError := by
  simp [pure, Except.pure]

theorem bind_ne_vE {α β : Type} {x : Except PyErr α} {f : α → Except PyErr β}
    (hx : x ≠ .error .valueError) (hf : ∀ a, f a ≠ .error .valueError) :
    (x >>= f) ≠ .error .valueError := by
  cases x with
  | error e =>
    have he : e ≠ PyErr.valueError := fun hh => hx (by rw [hh])
    rw [exbind_error]
    simpa using he
  | ok a => rw [exbind_ok]; exact hf a

theorem ite_ne_vE {α : Type} {c : Prop} [Decidable c] {x y : Except PyErr α}
    (hx : x ≠ .error .valueError) (hy : y ≠ .error .valueError) :
    (if c then x else y) ≠ .error .valueError := by
  split
  · exact hx
  · exact hy

theorem pyGetItem_ne (v : PyVal) (i : ℕ) : pyGetItem v i ≠ .error .valueError := by
  cases v <;> simp only [pyGetItem] <;> (try split) <;> simp

theorem pySetItem_ne (v : PyVal) (i : ℕ) (x : PyVal) :
    pySetItem v i x ≠ .error .valueError := by
  cases v <;> simp [pySetItem]

theorem pyLt_ne (a b : PyVal) : pyLt a b ≠ .error .valueError := by
  cases a <;> cases b <;> simp [pyLt, numView]

theorem pyGe_ne (a b : PyVal) : pyGe a b ≠ .error .valueError := by
  cases a <;> cases b <;> simp [pyGe, numView]

theorem pyAdd_ne (a b : PyVal) : pyAdd a b ≠ .error .valueError := by
  cases a <;> cases b <;> simp [pyAdd, numView]

theorem pyFloatDiv_ne (a b : PyFloat) : pyFloatDiv a b ≠ .error .valueError := by
  unfold pyFloatDiv
  split
  · simp
  · cases a <;> cases b <;> simp

theorem exmap_ne {α β : Type} {x : Except PyErr α} (f : α → β)
    (hx : x ≠ .error .valueError) :
    (Except.map f x : Except PyErr β) ≠ .error .valueError := by
  cases x with
  | error e =>
    have he : e ≠ PyErr.valueError := fun hh => hx (by rw [hh])
    simpa [Except.map] using he
  | ok a => simp [Except.map]

theorem pyDiv_ne (a b : PyVal) : pyDiv a b ≠ .error .valueError := by
  unfold pyDiv
  cases h1 : numView a <;> cases h2 : numView b <;> simp
  exact exmap_ne _ (pyFloatDiv_ne _ _)

theorem pyItemAddAssign_ne (v : PyVal) (i : ℕ) (d : PyVal) :
    pyItemAddAssign v i d ≠ .error .valueError := by
  unfold pyItemAddAssign
  exact bind_ne_vE (pyGetItem_ne _ _) fun cur =>
    bind_ne_vE (pyAdd_ne _ _) fun s => pySetItem_ne _ _ _

theorem cellGet_ne (l : List PyVal) (j : ℕ) : cellGet l j ≠ .error .valueError := by
  unfold cellGet
  split <;> simp

theorem yGet_ne (Y : YArg) (i : ℕ) : yGet Y i ≠ .error .valueError := by
  cases Y <;> simp only [yGet] <;> (try split) <;> simp

theorem listGetZ_ne (l : List ℤ) (i : ℕ) : listGetZ l i ≠ .error .valueError := by
  unfold listGetZ
  split <;> simp

theorem countLabel_ne (lc : PyVal) (y : ℤ) : countLabel lc y ≠ .error .valueError := by
  unfold countLabel
  exact ite_ne_vE (pyItemAddAssign_ne _ _ _) (pyItemAddAssign_ne _ _ _)

theorem voteStep_ne (tcv et : PyVal) : voteStep tcv et ≠ .error .valueError := by
  unfold voteStep
  exact ite_ne_vE (pyItemAddAssign_ne _ _ _) (pyItemAddAssign_ne _ _ _)

theorem confAppend_ne (confidence : Bool) (t : PyVal) (n : ℤ) :
    confAppend confidence t n ≠ .error .valueError := by
  unfold confAppend
  exact ite_ne_vE (bind_ne_vE (pyDiv_ne _ _) fun c => pure_ne_vE _) (pure_ne_vE _)

theorem rowValidAux_ne (row inter : List PyVal) :
    ∀ (fuel j : ℕ), rowValidAux row inter j fuel ≠ .error .valueError := by
  intro fuel
  induction fuel with
  | zero => intro j; simp [rowValidAux]
  | succ n ih =>
    intro j
    refine bind_ne_vE (cellGet_ne _ _) ?_
    intro cell
    cases cell <;> try exact ih _
    case str s =>
      refine bind_ne_vE (cellGet_ne _ _) ?_
      intro pj
      refine ite_ne_vE (pure_ne_vE _) ?_
      refine bind_ne_vE (pyGetItem_ne _ _) ?_
      intro lo
      refine bind_ne_vE (pyLt_ne _ _) ?_
      intro c1
      refine ite_ne_vE (pure_ne_vE _) ?_
      refine bind_ne_vE (pyGetItem_ne _ _) ?_
      intro hi
      refine bind_ne_vE (pyLt_ne _ _) ?_
      intro c2
      exact ite_ne_vE (pure_ne_vE _) (ih _)

theorem rowsLoop_ne (Y : YArg) (inter : List PyVal) (width : ℕ) :
    ∀ (rows : List (List PyVal)) (i : ℕ) (lc : PyVal),
      rowsLoop Y inter width rows i lc ≠ .error .valueError := by
  intro rows
  induction rows with
  | nil => intro i lc; simp [rowsLoop]
  | cons r rs ih =>
    intro i lc
    refine bind_ne_vE (rowValidAux_ne _ _ _ _) ?_
    intro v
    refine ite_ne_vE ?_ (ih _ _)
    refine bind_ne_vE (yGet_ne _ _) ?_
    intro y
    refine bind_ne_vE (countLabel_ne _ _) ?_
    intro lc'
    exact ih _ _

theorem afterLoop_ne (cfg : LazyCfg) (lc : PyVal) :
    afterLoop cfg lc ≠ .error .valueError := by
  unfold afterLoop
  refine bind_ne_vE (pyGetItem_ne _ _) ?_
  intro v0
  refine bind_ne_vE (pyGetItem_ne _ _) ?_
  intro v1
  refine bind_ne_vE (pyAdd_ne _ _) ?_
  intro es
  refine bind_ne_vE (pyLt_ne _ _) ?_
  intro small
  refine ite_ne_vE (pure_ne_vE _) ?_
  refine bind_ne_vE (pyLt_ne _ _) ?_
  intro g
  refine ite_ne_vE ?_ ?_ <;>
    exact bind_ne_vE (pyDiv_ne _ _) fun r =>
      bind_ne_vE (pyGe_ne _ _) fun t => pure_ne_vE _

theorem compute_extent_target_ne (cfg : LazyCfg) (X_train : NpArr) (Y_train : YArg)
    (inter : List PyVal) :
    compute_extent_target cfg X_train Y_train inter ≠ .error .valueError := by
  cases X_train with
  | one r =>
    unfold compute_extent_target
    exact ite_ne_vE (afterLoop_ne _ _) (by simp)
  | two rows =>
    unfold compute_extent_target
    exact bind_ne_vE (rowsLoop_ne _ _ _ _ _ _) fun lc => afterLoop_ne _ _

theorem interCells_ne (cfg : LazyCfg)
    (hp : ∀ a b, callPolicy cfg.numerical_preprocessing a b ≠ .error .valueError) :
    ∀ (x ts : List PyVal), interCells cfg x ts ≠ .error .valueError := by
  intro x
  induction x with
  | nil => intro ts; simp [interCells]
  | cons xi xs ih =>
    intro ts
    cases ts with
    | nil => simp [interCells]
    | cons ti ts' =>
      simp only [interCells]
      cases xi
      case str s => exact bind_ne_vE (ih ts') fun rest => pure_ne_vE _
      all_goals exact bind_ne_vE (hp _ _) fun v =>
        bind_ne_vE (ih ts') fun rest => pure_ne_vE _

theorem scanLoop_ne (cfg : LazyCfg)
    (hp : ∀ a b, callPolicy cfg.numerical_preprocessing a b ≠ .error .valueError)
    (x : List PyVal) :
    ∀ (xts : List (List PyVal)) (yts : List ℤ) (s : ScanState),
      scanLoop cfg x xts yts s ≠ .error .valueError := by
  intro xts
  induction xts with
  | nil => intro yts s; simp [scanLoop]
  | cons xt xts ih =>
    intro yts s
    cases yts with
    | nil => simp [scanLoop]
    | cons yt yts =>
      simp only [scanLoop]
      refine bind_ne_vE (interCells_ne cfg hp x xt) ?_
      intro inter
      refine bind_ne_vE (compute_extent_target_ne _ _ _ _) ?_
      intro et
      refine ite_ne_vE (ih _ _) ?_
      refine bind_ne_vE (voteStep_ne _ _) ?_
      intro tc
      exact ite_ne_vE (by simp) (ih _ _)

theorem resolveQuery_ne (cfg : LazyCfg) (classes : List ℤ) (s : ScanState)
    (confidence : Bool) :
    resolveQuery cfg classes s confidence ≠ .error .valueError := by
  unfold resolveQuery
  refine bind_ne_vE (pyGetItem_ne _ _) ?_
  intro t0
  refine bind_ne_vE (pyGetItem_ne _ _) ?_
  intro t1
  refine bind_ne_vE (pyAdd_ne _ _) ?_
  intro tot
  refine bind_ne_vE (pyGe_ne _ _) ?_
  intro enough
  refine ite_ne_vE ?_ (pure_ne_vE _)
  refine bind_ne_vE (pyLt_ne _ _) ?_
  intro g
  refine ite_ne_vE ?_ ?_
  · refine bind_ne_vE (confAppend_ne _ _ _) ?_
    intro confs
    exact bind_ne_vE (listGetZ_ne _ _) fun c0 => pure_ne_vE _
  · refine bind_ne_vE (pyLt_ne _ _) ?_
    intro g2
    refine ite_ne_vE ?_ (pure_ne_vE _)
    refine bind_ne_vE (confAppend_ne _ _ _) ?_
    intro confs
    exact bind_ne_vE (listGetZ_ne _ _) fun c1 => pure_ne_vE _

theorem queryLoop_ne (cfg : LazyCfg)
    (hp : ∀ a b, callPolicy cfg.numerical_preprocessing a b ≠ .error .valueError)
    (classes : List ℤ) (Xtr : List (List PyVal)) (Yb : List ℤ) (confidence : Bool) :
    ∀ (X : List (List PyVal)) (acc : List (Option ℤ)) (confs : List PyVal),
      (queryLoop cfg classes Xtr Yb confidence X acc confs).err ≠ some .valueError := by
  intro X
  induction X with
  | nil => intro acc confs; simp [queryLoop]
  | cons x xs ih =>
    intro acc confs
    simp only [queryLoop]
    split
    · rename_i e heq
      have h2 := scanLoop_ne cfg hp x Xtr Yb ⟨0, pairZeroZero⟩
      rw [heq] at h2
      simpa using h2
    · rename_i s heq
      split
      · rename_i e2 heq2
        have h4 := resolveQuery_ne cfg classes s confidence
        rw [heq2] at h4
        simpa using h4
      · exact ih _ _

theorem callPolicy_builtin (b : BuiltinChoice) (a c : PyVal) :
    callPolicy (builtinPolicy b) a c = .error .typeError := by
  cases b <;> rfl

theorem callPolicy_builtin_ne (b : BuiltinChoice) (a c : PyVal) :
    callPolicy (builtinPolicy b) a c ≠ .error .valueError := by
  rw [callPolicy_builtin]
  simp

/-- C4: `predict` raises ValueError exactly when the training labels do not
hold exactly two distinct values (lines 196-199); with exactly two distinct
labels no ValueError is ever raised, for any of the three shipped interval
policies and any query or training data - every other failure of the run
is a TypeError, IndexError or ZeroDivisionError, never a ValueError. -/
theorem C4_valueError_iff_label_count_not_two (b : BuiltinChoice) (θ u : ℚ) (m k : ℤ)
    (X X_train : List (List PyVal)) (Y_train : List ℤ) (confidence : Bool)
    (confidence0 : List PyVal) :
    (predictRun ⟨θ, u, m, k, builtinPolicy b⟩ X X_train Y_train confidence
        confidence0).err = some .valueError ↔
      (uniqueLabels Y_train).length ≠ 2 := by
  constructor
  · intro h hlen
    unfold predictRun at h
    rw [if_pos hlen] at h
    exact queryLoop_ne _ (fun a c => callPolicy_builtin_ne b a c) _ _ _ _ _ _ _ h
  · intro h
    unfold predictRun
    rw [if_neg h]

theorem interCells_all_str (cfg : LazyCfg) :
    ∀ (x ts : List PyVal), x.all isStrV = true → ts.length = x.length →
      ∃ l, interCells cfg x ts = .ok l := by
  intro x
  induction x with
  | nil => intro ts _ _; exact ⟨[], rfl⟩
  | cons xi xs ih =>
    intro ts hall hlen
    cases ts with
    | nil => simp at hlen
    | cons ti ts' =>
      simp only [List.all_cons, Bool.and_eq_true] at hall
      obtain ⟨hxi, hxs⟩ := hall
      cases xi <;> simp [isStrV] at hxi
      rename_i s
      obtain ⟨l, hl⟩ := ih ts' hxs (by simpa using hlen)
      refine ⟨(if pyEq (PyVal.str s) ti then PyVal.str s else PyVal.str "*") :: l, ?_⟩
      simp only [interCells]
      rw [hl, exbind_ok]
      rfl

theorem interCells_has_non_str (cfg : LazyCfg)
    (hp : ∀ a b, callPolicy cfg.numerical_preprocessing a b = .error .typeError) :
    ∀ (x ts : List PyVal), x.all isStrV = false → ts.length = x.length →
      interCells cfg x ts = .error .typeError := by
  intro x
  induction x with
  | nil => intro ts hall _; simp at hall
  | cons xi xs ih =>
    intro ts hall hlen
    cases ts with
    | nil => simp at hlen
    | cons ti ts' =>
      simp only [List.all_cons, Bool.and_eq_false_iff] at hall
      cases xi
      case str s =>
        have hxs : xs.all isStrV = false := by
          rcases hall with h1 | h2
          · simp [isStrV] at h1
          · exact h2
        simp only [interCells]
        rw [ih ts' hxs (by simpa using hlen), exbind_error]
      all_goals
        simp only [interCells]
        rw [hp _ _, exbind_error]

theorem extent_single_row_indexError (cfg : LazyCfg) (r : List PyVal) (hr : r ≠ [])
    (Y : YArg) (inter : List PyVal) :
    compute_extent_target cfg (.one r) Y inter = .error .indexError := by
  have hstep : compute_extent_target cfg (.one r) Y inter =
      if r.length = 0 then afterLoop cfg pairZeroZero else .error .indexError := rfl
  rw [hstep, if_neg (fun h0 => hr (List.length_eq_zero.mp h0))]

theorem scanLoop_first_inter_error (cfg : LazyCfg) (x xt : List PyVal)
    (xts : List (List PyVal)) (yt : ℤ) (yts : List ℤ) (s : ScanState) (e : PyErr)
    (h : compute_instersection cfg x xt = .error e) :
    scanLoop cfg x (xt :: xts) (yt :: yts) s = .error e := by
  simp only [scanLoop, h, exbind_error]

theorem scanLoop_first_extent_error (cfg : LazyCfg) (x xt : List PyVal)
    (xts : List (List PyVal)) (yt : ℤ) (yts : List ℤ) (s : ScanState)
    (l : List PyVal) (e : PyErr)
    (h1 : compute_instersection cfg x xt = .ok l)
    (h2 : compute_extent_target cfg (.one xt) (.scalar yt) l = .error e) :
    scanLoop cfg x (xt :: xts) (yt :: yts) s = .error e := by
  simp only [scanLoop, h1, exbind_ok, h2, exbind_error]

theorem queryLoop_first_error (cfg : LazyCfg) (classes : List ℤ)
    (Xtr : List (List PyVal)) (Yb : List ℤ) (confidence : Bool) (x : List PyVal)
    (xs : List (List PyVal)) (e : PyErr)
    (h : scanLoop cfg x Xtr Yb ⟨0, pairZeroZero⟩ = .error e) :
    queryLoop cfg classes Xtr Yb confidence (x :: xs) [] [] = ⟨[], some e, []⟩ := by
  simp only [queryLoop, h]

theorem binarize_length (Y : List ℤ) : (binarize Y).length = Y.length := by
  simp only [binarize]
  split
  · rfl
  · simp

theorem uniqueLabels_two_ne_nil {Y : List ℤ} (h : (uniqueLabels Y).length = 2) :
    Y ≠ [] := by
  intro hY
  subst hY
  have h0 : uniqueLabels ([] : List ℤ) = [] := rfl
  rw [h0] at h
  exact absurd h (by decide)

/-- C10: with any shipped interval policy, any non-empty query set and any
non-empty training set carrying exactly two distinct labels, driving the
prediction generator raises an uncaught exception before the first yield:
a query row holding any non-string (numeric) feature hits the bound-method
call of a two-parameter interval policy with three arguments (TypeError);
an all-string query row survives the intersection but the extent
evaluation then reads `shape[1]` of the 1-D training row it was handed
(IndexError).  The row-width hypothesis reflects the rectangular arrays
the external validation guarantees. -/
theorem C10_predict_raises_before_first_yield (b : BuiltinChoice) (θ u : ℚ)
    (m k : ℤ) (x : List PyVal) (Xs : List (List PyVal)) (xt : List PyVal)
    (Xts : List (List PyVal)) (Y_train : List ℤ) (confidence : Bool)
    (confidence0 : List PyVal)
    (hcls : (uniqueLabels Y_train).length = 2)
    (hx : x ≠ []) (hlen : xt.length = x.length) :
    (x.all isStrV = false →
      predictRun ⟨θ, u, m, k, builtinPolicy b⟩ (x :: Xs) (xt :: Xts) Y_train
        confidence confidence0 = ⟨[], some .typeError, []⟩) ∧
    (x.all isStrV = true →
      predictRun ⟨θ, u, m, k, builtinPolicy b⟩ (x :: Xs) (xt :: Xts) Y_train
        confidence confidence0 = ⟨[], some .indexError, []⟩) := by
  have hY : Y_train ≠ [] := uniqueLabels_two_ne_nil hcls
  have hYb : binarize Y_train ≠ [] := by
    intro h0
    apply hY
    have hL := binarize_length Y_train
    rw [h0] at hL
    exact List.length_eq_zero.mp hL.symm
  obtain ⟨y0, yts, hYb2⟩ := List.exists_cons_of_ne_nil hYb
  have hxt : xt ≠ [] := by
    intro h0
    apply hx
    rw [h0] at hlen
    exact List.length_eq_zero.mp hlen.symm
  constructor
  · intro hnon
    unfold predictRun
    rw [if_pos hcls, hYb2]
    exact queryLoop_first_error _ _ _ _ _ _ _ _
      (scanLoop_first_inter_error _ _ _ _ _ _ _ _
        (interCells_has_non_str _ (fun a c => callPolicy_builtin b a c) x xt hnon hlen))
  · intro hstr
    unfold predictRun
    rw [if_pos hcls, hYb2]
    obtain ⟨l, hl⟩ := interCells_all_str _ x xt hstr hlen
    exact queryLoop_first_error _ _ _ _ _ _ _ _
      (scanLoop_first_extent_error _ _ _ _ _ _ _ _ _ hl
        (extent_single_row_indexError _ xt hxt _ l))

/-- Witness for C10 at a concrete input: one all-categorical query row, one
training row, labels 0 and 1 - the run yields nothing and raises
IndexError. -/
theorem C10_witness :
    predictRun ⟨9/10, 8/10, 2, 1, builtinPolicy .basicI⟩ [[PyVal.str "a"]]
      [[PyVal.str "b"]] [0, 1] false [] = ⟨[], some .indexError, []⟩ :=
  (C10_predict_raises_before_first_yield .basicI (9/10) (8/10) 2 1 [PyVal.str "a"]
    [] [PyVal.str "b"] [] [0, 1] false [] (by decide) (by simp) rfl).2 rfl
